import Mathlib

/-!
Verification of the fan-control loop in `cpu_temp_monitors.py`.

Temperatures are modelled as rationals (the program only compares
temperatures, never does arithmetic on them, so `ℚ` is a faithful model
of the Python floats involved); fan duty values are integers.
A threshold table is a list of `(threshold, duty)` pairs.
-/

namespace FanControl

/-- A threshold table: `(temperatureThreshold, dutyValue)` pairs. -/
abbrev ThresholdTable := List (ℚ × ℤ)

/-- The CPU threshold table `CPU_THRESHOLDS` of the source. -/
def CPU_THRESHOLDS : ThresholdTable :=
  [(0, 0), (47, 1), (48, 2), (49, 3), (50, 4), (51, 5), (52, 6), (53, 7),
   (54, 8), (55, 10), (60, 20), (65, 25), (70, 35), (75, 100)]

/-- The HDD threshold table `HDD_THRESHOLDS` of the source. -/
def HDD_THRESHOLDS : ThresholdTable :=
  [(0, 0), (55, 10), (58, 20), (60, 30), (65, 50), (75, 100)]

/-- The `for ... else break` loop body of `choose_fan_value`:
`chosen` is the accumulator `chosen_value`; the loop overwrites it while
`temperature >= threshold` and stops at the first entry whose threshold
exceeds the temperature. -/
def chooseFanLoop (temperature : ℚ) (chosen : ℤ) : ThresholdTable → ℤ
  | [] => chosen
  | (threshold, fan_val) :: rest =>
      if temperature ≥ threshold then chooseFanLoop temperature fan_val rest
      else chosen

/-- `choose_fan_value(temperature, thresholds)` from the source:
start with `chosen_value = 0` and run the scan loop. -/
def choose_fan_value (temperature : ℚ) (thresholds : ThresholdTable) : ℤ :=
  chooseFanLoop temperature 0 thresholds

/-- The two module-level duty variables `cpu_fan_speed` and
`hdd_fan_speed` of the source. -/
structure ControlState where
  cpu_fan_speed : ℤ
  hdd_fan_speed : ℤ
  deriving DecidableEq, Repr

/-- The initial state: both globals are initialised to `0`. -/
def initState : ControlState := ⟨0, 0⟩

/-- `update_final_fan_speed`: the duty value handed to `set_fan_speed`,
namely `max(cpu_fan_speed, hdd_fan_speed)`. -/
def update_final_fan_speed (s : ControlState) : ℤ :=
  max s.cpu_fan_speed s.hdd_fan_speed

/-- `check_cpu`, with the outcome of `get_cpu_temperature()` made an
explicit `Option` argument.  Returns the updated state together with the
duty value that `update_final_fan_speed` passes to the actuator. -/
def check_cpu (reading : Option ℚ) (s : ControlState) : ControlState × ℤ :=
  let s' : ControlState :=
    match reading with
    | some cpu_temp => { s with cpu_fan_speed := choose_fan_value cpu_temp CPU_THRESHOLDS }
    | none => s
  (s', update_final_fan_speed s')

/-- The aggregation loop of `check_hdds`: `max_hdd_temp` starts at `0.0`
and is bumped whenever a successful reading exceeds it. -/
def aggregate_max (readings : List (Option ℚ)) : ℚ :=
  readings.foldl
    (fun max_hdd_temp r =>
      match r with
      | some hdd_temp => if hdd_temp > max_hdd_temp then hdd_temp else max_hdd_temp
      | none => max_hdd_temp)
    0

/-- `check_hdds`, with the per-device outcomes of `get_hdd_temperature`
made an explicit list of `Option`s (one per device of `HDD_LIST`).
Returns the updated state together with the actuated duty value. -/
def check_hdds (readings : List (Option ℚ)) (s : ControlState) : ControlState × ℤ :=
  let s' : ControlState :=
    { s with hdd_fan_speed := choose_fan_value (aggregate_max readings) HDD_THRESHOLDS }
  (s', update_final_fan_speed s')

/-- One scheduler firing: either a CPU tick (with its optional reading)
or a drive-set tick (with its per-device optional readings). -/
inductive Tick where
  | cpu (reading : Option ℚ)
  | hdd (readings : List (Option ℚ))

/-- Run one tick, producing the new state and the actuated duty. -/
def runTick : Tick → ControlState → ControlState × ℤ
  | .cpu r, s => check_cpu r s
  | .hdd rs, s => check_hdds rs s

/-- Run a sequence of ticks from a state, collecting every duty value
handed to `set_fan_speed` along the way. -/
def runTicks : List Tick → ControlState → ControlState × List ℤ
  | [], s => (s, [])
  | t :: ts, s =>
      let (s', d) := runTick t s
      let (s'', ds) := runTicks ts s'
      (s'', d :: ds)

/-- A table is sorted (ascending) by threshold. -/
def sortedTable (table : ThresholdTable) : Prop :=
  (table.map Prod.fst).Sorted (· ≤ ·)

instance (table : ThresholdTable) : Decidable (sortedTable table) :=
  List.decidableSorted _

/-- Reference definition, from the spec's words: the duty of the last
entry in the sequence whose threshold is ≤ T, or 0 if no entry
qualifies. -/
def selectDuty_spec (T : ℚ) (table : ThresholdTable) : ℤ :=
  match (table.filter (fun p => decide (p.1 ≤ T))).getLast? with
  | some p => p.2
  | none => 0

/-- The scan loop either keeps its accumulator or returns a duty that
occurs in the table. -/
lemma chooseFanLoop_eq_or_mem (t : ℚ) :
    ∀ (table : ThresholdTable) (chosen : ℤ),
      chooseFanLoop t chosen table = chosen ∨
        ∃ p ∈ table, chooseFanLoop t chosen table = p.2 := by
  intro table
  induction table with
  | nil => intro chosen; left; rfl
  | cons hd rest ih =>
      intro chosen
      obtain ⟨th, d⟩ := hd
      by_cases h : t ≥ th
      · rcases ih d with h' | ⟨p, hp, h'⟩
        · right
          exact ⟨(th, d), List.mem_cons_self _ _, by simp [chooseFanLoop, h, h']⟩
        · right
          exact ⟨p, List.mem_cons_of_mem _ hp, by simp [chooseFanLoop, h, h']⟩
      · left
        simp [chooseFanLoop, h]

/-- On a threshold-sorted table the early-exit scan computes the last
qualifying entry's duty, with the accumulator as the fallback. -/
lemma chooseFanLoop_sorted_eq (t : ℚ) :
    ∀ (table : ThresholdTable) (chosen : ℤ), sortedTable table →
      chooseFanLoop t chosen table =
        match (table.filter (fun p => decide (p.1 ≤ t))).getLast? with
        | some p => p.2
        | none => chosen := by
  intro table
  induction table with
  | nil => intro chosen _; rfl
  | cons hd rest ih =>
      intro chosen hs
      obtain ⟨th, d⟩ := hd
      have hs' : (∀ b ∈ rest.map Prod.fst, th ≤ b) ∧ sortedTable rest := by
        simpa [sortedTable, List.sorted_cons] using hs
      by_cases h : t ≥ th
      · have hfilter :
            ((th, d) :: rest).filter (fun p => decide (p.1 ≤ t)) =
              (th, d) :: rest.filter (fun p => decide (p.1 ≤ t)) := by
          simp [List.filter_cons, h]
        rw [hfilter]
        have hloop : chooseFanLoop t chosen ((th, d) :: rest) = chooseFanLoop t d rest := by
          simp [chooseFanLoop, h]
        rw [hloop, ih d hs'.2]
        cases hfr : rest.filter (fun p => decide (p.1 ≤ t)) with
        | nil => simp
        | cons q qs =>
            have hx := List.getLast?_eq_getLast (q :: qs) (by simp)
            simp [hx]
      · have hlt : th > t := lt_of_not_ge h
        have hfilter :
            ((th, d) :: rest).filter (fun p => decide (p.1 ≤ t)) = [] := by
          rw [List.filter_cons]
          have h1 : ¬ (th ≤ t) := not_le.mpr hlt
          rw [if_neg (by simpa using h1)]
          rw [List.filter_eq_nil_iff]
          intro p hp
          have h2 : th ≤ p.1 := hs'.1 p.1 (List.mem_map_of_mem Prod.fst hp)
          simpa using not_le.mpr (lt_of_lt_of_le hlt h2)
        rw [hfilter]
        simp [chooseFanLoop, h]

/-- Monotonicity of the scan loop in the temperature, when the duty
column is non-decreasing and dominates the starting accumulator. -/
lemma chooseFanLoop_mono (t1 t2 : ℚ) (ht : t1 ≤ t2) :
    ∀ (table : ThresholdTable) (c1 c2 : ℤ),
      (table.map Prod.snd).Sorted (· ≤ ·) →
      (∀ p ∈ table, c1 ≤ p.2) → c1 ≤ c2 →
      chooseFanLoop t1 c1 table ≤ chooseFanLoop t2 c2 table := by
  intro table
  induction table with
  | nil => intro c1 c2 _ _ hcc; simpa [chooseFanLoop] using hcc
  | cons hd rest ih =>
      intro c1 c2 hsd hdom hcc
      obtain ⟨th, d⟩ := hd
      have hsd' : (∀ b ∈ rest.map Prod.snd, d ≤ b) ∧ (rest.map Prod.snd).Sorted (· ≤ ·) := by
        simpa [List.sorted_cons] using hsd
      by_cases h1 : t1 ≥ th
      · have h2 : t2 ≥ th := le_trans h1 ht
        have hrec := ih d d hsd'.2
          (fun p hp => hsd'.1 p.2 (List.mem_map_of_mem Prod.snd hp)) le_rfl
        simpa [chooseFanLoop, h1, h2] using hrec
      · by_cases h2 : t2 ≥ th
        · have hle : c1 ≤ chooseFanLoop t2 d rest := by
            rcases chooseFanLoop_eq_or_mem t2 rest d with h' | ⟨p, hp, h'⟩
            · rw [h']; exact hdom (th, d) (List.mem_cons_self _ _)
            · rw [h']; exact hdom p (List.mem_cons_of_mem _ hp)
          simpa [chooseFanLoop, h1, h2] using hle
        · simpa [chooseFanLoop, h1, h2] using hcc

/-- The spec's `max(readings, default = 0.0)`: the maximum of a list of
readings, or `0` when the list is empty. -/
def specMaxDefault : List ℚ → ℚ
  | [] => 0
  | x :: xs => xs.foldl max x

lemma aggregate_max_eq_foldl_max (readings : List (Option ℚ)) :
    ∀ acc : ℚ,
      readings.foldl
        (fun max_hdd_temp r =>
          match r with
          | some hdd_temp => if hdd_temp > max_hdd_temp then hdd_temp else max_hdd_temp
          | none => max_hdd_temp) acc =
      (readings.filterMap id).foldl max acc := by
  induction readings with
  | nil => intro acc; rfl
  | cons r rs ih =>
      intro acc
      cases r with
      | none => simpa using ih acc
      | some t =>
          have hstep :
              (if t > acc then t else acc) = max acc t := by
            rcases lt_or_le acc t with h | h
            · rw [if_pos h, max_eq_right h.le]
            · rw [if_neg (not_lt.mpr h), max_eq_left h]
          simpa [hstep] using ih (max acc t)

lemma foldl_max_max (l : List ℚ) :
    ∀ c a : ℚ, l.foldl max (max c a) = max c (l.foldl max a) := by
  induction l with
  | nil => intro c a; rfl
  | cons b bs ih =>
      intro c a
      simpa [max_assoc] using ih c (max a b)

/-- The source's aggregation equals the spec's max-with-default clamped
below by `0` (the loop starts its running maximum at `0.0`). -/
lemma aggregate_max_eq (readings : List (Option ℚ)) :
    aggregate_max readings = max 0 (specMaxDefault (readings.filterMap id)) := by
  unfold aggregate_max
  rw [aggregate_max_eq_foldl_max readings 0]
  cases hfm : readings.filterMap id with
  | nil => simp [specMaxDefault]
  | cons x xs =>
      have : (x :: xs).foldl max 0 = xs.foldl max (max 0 x) := rfl
      rw [this, foldl_max_max xs 0 x]
      rfl

/-- Clamping a temperature below by `0` does not change the selected
duty under the HDD table (whose first entry is `(0, 0)`). -/
lemma choose_hdd_clamp (m : ℚ) :
    choose_fan_value (max 0 m) HDD_THRESHOLDS = choose_fan_value m HDD_THRESHOLDS := by
  rcases le_or_lt 0 m with h | h
  · rw [max_eq_right h]
  · rw [max_eq_left h.le]
    have h1 : choose_fan_value 0 HDD_THRESHOLDS = 0 := by decide
    have h2 : choose_fan_value m HDD_THRESHOLDS = 0 := by
      simp [choose_fan_value, HDD_THRESHOLDS, chooseFanLoop, not_le.mpr h]
    rw [h1, h2]

/-- `choose_fan_value` stays within `[0, 100]` whenever every duty of
the table does. -/
lemma choose_fan_value_range (t : ℚ) (table : ThresholdTable)
    (h : ∀ p ∈ table, 0 ≤ p.2 ∧ p.2 ≤ 100) :
    0 ≤ choose_fan_value t table ∧ choose_fan_value t table ≤ 100 := by
  rcases chooseFanLoop_eq_or_mem t table 0 with h' | ⟨p, hp, h'⟩
  · unfold choose_fan_value
    rw [h']
    exact ⟨le_rfl, by norm_num⟩
  · unfold choose_fan_value
    rw [h']
    exact h p hp

/-- Both stored duty values lie in `[0, 100]`. -/
def stateInRange (s : ControlState) : Prop :=
  0 ≤ s.cpu_fan_speed ∧ s.cpu_fan_speed ≤ 100 ∧
    0 ≤ s.hdd_fan_speed ∧ s.hdd_fan_speed ≤ 100

lemma CPU_THRESHOLDS_duties_range :
    ∀ p ∈ CPU_THRESHOLDS, 0 ≤ p.2 ∧ p.2 ≤ 100 := by decide

lemma HDD_THRESHOLDS_duties_range :
    ∀ p ∈ HDD_THRESHOLDS, 0 ≤ p.2 ∧ p.2 ≤ 100 := by decide

lemma runTick_preserves (tk : Tick) (s : ControlState) (hs : stateInRange s) :
    stateInRange (runTick tk s).1 ∧
      0 ≤ (runTick tk s).2 ∧ (runTick tk s).2 ≤ 100 := by
  obtain ⟨hc0, hc1, hh0, hh1⟩ := hs
  have hrange : stateInRange (runTick tk s).1 := by
    cases tk with
    | cpu r =>
        cases r with
        | none => exact ⟨hc0, hc1, hh0, hh1⟩
        | some temp =>
            have h := choose_fan_value_range temp CPU_THRESHOLDS CPU_THRESHOLDS_duties_range
            exact ⟨h.1, h.2, hh0, hh1⟩
    | hdd rs =>
        have h := choose_fan_value_range (aggregate_max rs) HDD_THRESHOLDS
          HDD_THRESHOLDS_duties_range
        exact ⟨hc0, hc1, h.1, h.2⟩
  refine ⟨hrange, ?_, ?_⟩
  · obtain ⟨hc0', _, hh0', _⟩ := hrange
    have : (runTick tk s).2 = update_final_fan_speed (runTick tk s).1 := by
      cases tk <;> rfl
    rw [this]
    exact le_trans hc0' (le_max_left _ _)
  · obtain ⟨_, hc1', _, hh1'⟩ := hrange
    have : (runTick tk s).2 = update_final_fan_speed (runTick tk s).1 := by
      cases tk <;> rfl
    rw [this]
    exact max_le hc1' hh1'

lemma runTicks_outputs_range (ticks : List Tick) :
    ∀ s : ControlState, stateInRange s →
      ∀ d ∈ (runTicks ticks s).2, 0 ≤ d ∧ d ≤ 100 := by
  induction ticks with
  | nil => intro s _ d hd; simp [runTicks] at hd
  | cons tk ts ih =>
      intro s hs d hd
      have hstep := runTick_preserves tk s hs
      simp only [runTicks] at hd
      rcases List.mem_cons.mp hd with h | h
      · exact h ▸ hstep.2
      · exact ih (runTick tk s).1 hstep.1 d h

/-- Claim C1: the arbitrated commanded duty always equals the maximum of
the CPU domain's current duty and the HDD domain's current duty;
`update_final_fan_speed` passes exactly `max(cpu_fan_speed,
hdd_fan_speed)` to the actuator (so it is never less than either
domain's duty), and both tick functions actuate exactly that value on
their updated state. -/
theorem claim_C1_arbiter_max (s : ControlState) :
    update_final_fan_speed s = max s.cpu_fan_speed s.hdd_fan_speed ∧
      s.cpu_fan_speed ≤ update_final_fan_speed s ∧
      s.hdd_fan_speed ≤ update_final_fan_speed s ∧
      (∀ r, (check_cpu r s).2 = update_final_fan_speed (check_cpu r s).1) ∧
      (∀ rs, (check_hdds rs s).2 = update_final_fan_speed (check_hdds rs s).1) :=
  ⟨rfl, le_max_left _ _, le_max_right _ _, fun _ => rfl, fun _ => rfl⟩

/-- Claim C2: in a drive-set tick the HDD duty written equals
`choose_fan_value` applied to the maximum of the successful readings
(default `0.0` when no reading succeeds) under the HDD table; in
particular, with no successful reading the written duty equals
`choose_fan_value 0 HDD_THRESHOLDS`. -/
theorem claim_C2_hdd_tick_duty (readings : List (Option ℚ)) (s : ControlState) :
    (check_hdds readings s).1.hdd_fan_speed =
      choose_fan_value (specMaxDefault (readings.filterMap id)) HDD_THRESHOLDS ∧
      (readings.filterMap id = [] →
        (check_hdds readings s).1.hdd_fan_speed = choose_fan_value 0 HDD_THRESHOLDS) := by
  have h1 : (check_hdds readings s).1.hdd_fan_speed =
      choose_fan_value (aggregate_max readings) HDD_THRESHOLDS := rfl
  constructor
  · rw [h1, aggregate_max_eq, choose_hdd_clamp]
  · intro he
    rw [h1, aggregate_max_eq, he]
    simp [specMaxDefault]

/-- Witness for C2 at a concrete all-failed tick. -/
theorem claim_C2_hdd_tick_duty_witness :
    List.filterMap id [(none : Option ℚ), none] = [] ∧
      (check_hdds [(none : Option ℚ), none] initState).1.hdd_fan_speed =
        choose_fan_value 0 HDD_THRESHOLDS :=
  ⟨rfl, (claim_C2_hdd_tick_duty [none, none] initState).2 rfl⟩

/-- Claim C3: when the CPU temperature read returns no reading, the CPU
tick leaves the stored state unchanged and still proceeds to
arbitration and actuation with the stale duty values. -/
theorem claim_C3_cpu_failure_retains (s : ControlState) :
    (check_cpu none s).1 = s ∧
      (check_cpu none s).2 = max s.cpu_fan_speed s.hdd_fan_speed :=
  ⟨rfl, rfl⟩

/-- Counterexample to claim C4 as stated: the table `[(0, 10), (5, 2)]`
is sorted ascending by threshold, yet `choose_fan_value` is not
monotone on it: at temperature `0` it yields `10`, at temperature `5`
it yields `2`. -/
theorem claim_C4_counterexample :
    sortedTable [((0 : ℚ), (10 : ℤ)), (5, 2)] ∧ (0 : ℚ) ≤ 5 ∧
      ¬ choose_fan_value 0 [((0 : ℚ), (10 : ℤ)), (5, 2)] ≤
          choose_fan_value 5 [((0 : ℚ), (10 : ℤ)), (5, 2)] := by decide

/-- Claim C4 (amended): for every table sorted ascending by threshold
whose duty column is also non-decreasing and non-negative,
`choose_fan_value` is monotonically non-decreasing in temperature. -/
theorem claim_C4_selectDuty_mono (table : ThresholdTable)
    (_hth : sortedTable table)
    (hd : (table.map Prod.snd).Sorted (· ≤ ·))
    (hd0 : ∀ p ∈ table, 0 ≤ p.2)
    (t1 t2 : ℚ) (ht : t1 ≤ t2) :
    choose_fan_value t1 table ≤ choose_fan_value t2 table :=
  chooseFanLoop_mono t1 t2 ht table 0 0 hd hd0 le_rfl

/-- Witness for C4 (amended) on the configured CPU table. -/
theorem claim_C4_selectDuty_mono_witness :
    sortedTable CPU_THRESHOLDS ∧
      (CPU_THRESHOLDS.map Prod.snd).Sorted (· ≤ ·) ∧
      (∀ p ∈ CPU_THRESHOLDS, 0 ≤ p.2) ∧ (50 : ℚ) ≤ 60 ∧
      choose_fan_value 50 CPU_THRESHOLDS ≤ choose_fan_value 60 CPU_THRESHOLDS :=
  ⟨by decide, by decide, by decide, by decide,
    claim_C4_selectDuty_mono CPU_THRESHOLDS (by decide) (by decide) (by decide)
      50 60 (by decide)⟩

/-- Claim C5: on every threshold-sorted table the early-exit scan of
`choose_fan_value` returns exactly the reference value: the duty of the
last entry whose threshold is ≤ T, or `0` if no entry qualifies. -/
theorem claim_C5_early_exit_refines (table : ThresholdTable)
    (hs : sortedTable table) (T : ℚ) :
    choose_fan_value T table = selectDuty_spec T table := by
  unfold choose_fan_value selectDuty_spec
  rw [chooseFanLoop_sorted_eq T table 0 hs]

/-- Witness for C5 on the configured CPU table. -/
theorem claim_C5_early_exit_refines_witness :
    sortedTable CPU_THRESHOLDS ∧
      choose_fan_value 52 CPU_THRESHOLDS = selectDuty_spec 52 CPU_THRESHOLDS :=
  ⟨by decide, claim_C5_early_exit_refines CPU_THRESHOLDS (by decide) 52⟩

/-- Claim C6: the threshold boundary is inclusive: for a sorted table
containing the entry `(th, d)` with every later entry's threshold
strictly above `th`, querying at exactly `th` selects duty `d`. -/
theorem claim_C6_boundary_inclusive (pre post : ThresholdTable) (th : ℚ) (d : ℤ)
    (hs : sortedTable (pre ++ (th, d) :: post))
    (hpost : ∀ p ∈ post, th < p.1) :
    choose_fan_value th (pre ++ (th, d) :: post) = d := by
  unfold choose_fan_value
  rw [chooseFanLoop_sorted_eq th (pre ++ (th, d) :: post) 0 hs]
  have hfpost : post.filter (fun p => decide (p.1 ≤ th)) = [] := by
    rw [List.filter_eq_nil_iff]
    intro p hp
    simpa using not_le.mpr (hpost p hp)
  have hfp : (pre ++ (th, d) :: post).filter (fun p => decide (p.1 ≤ th)) =
      pre.filter (fun p => decide (p.1 ≤ th)) ++ [(th, d)] := by
    rw [List.filter_append, List.filter_cons, if_pos (by simp), hfpost]
  rw [hfp, List.getLast?_concat]

/-- Witness for C6 at the `(52, 6)` row of the configured CPU table. -/
theorem claim_C6_boundary_inclusive_witness :
    sortedTable CPU_THRESHOLDS ∧
      choose_fan_value 52
        ([((0 : ℚ), (0 : ℤ)), (47, 1), (48, 2), (49, 3), (50, 4), (51, 5)] ++
          (52, 6) :: [(53, 7), (54, 8), (55, 10), (60, 20), (65, 25), (70, 35), (75, 100)]) = 6 :=
  ⟨by decide,
    claim_C6_boundary_inclusive
      [((0 : ℚ), (0 : ℤ)), (47, 1), (48, 2), (49, 3), (50, 4), (51, 5)]
      [(53, 7), (54, 8), (55, 10), (60, 20), (65, 25), (70, 35), (75, 100)]
      52 6 (by decide) (by decide)⟩

/-- Counterexample to claim C7 as stated: on the sorted table
`[(10, 5)]`, a temperature of `3` lies strictly below the smallest
threshold, yet `choose_fan_value` returns `0`, not the first entry's
duty `5`. -/
theorem claim_C7_counterexample :
    sortedTable [((10 : ℚ), (5 : ℤ))] ∧ (3 : ℚ) < 10 ∧
      choose_fan_value 3 [((10 : ℚ), (5 : ℤ))] = 0 ∧
      choose_fan_value 3 [((10 : ℚ), (5 : ℤ))] ≠ 5 := by decide

/-- Claim C7 (amended): for every non-empty sorted table and every
temperature strictly below the smallest threshold (the first entry's
threshold), `choose_fan_value` returns `0` — which coincides with the
first entry's duty only when that duty is `0`, as in the configured
tables. -/
theorem claim_C7_below_min (table : ThresholdTable) (t : ℚ)
    (hs : sortedTable table) (hne : table ≠ [])
    (hlt : t < (table.head hne).1) :
    choose_fan_value t table = 0 := by
  cases table with
  | nil => exact absurd rfl hne
  | cons hd rest =>
      obtain ⟨th, d⟩ := hd
      simp only [List.head_cons] at hlt
      simp [choose_fan_value, chooseFanLoop, not_le.mpr hlt]

/-- Witness for C7 (amended) at the counterexample table. -/
theorem claim_C7_below_min_witness :
    sortedTable [((10 : ℚ), (5 : ℤ))] ∧ (3 : ℚ) < 10 ∧
      choose_fan_value 3 [((10 : ℚ), (5 : ℤ))] = 0 :=
  ⟨by decide, by decide,
    claim_C7_below_min [((10 : ℚ), (5 : ℤ))] 3 (by decide) (by simp) (by decide)⟩

/-- Claim C8: concrete evaluations against the configured tables:
`choose_fan_value 52 CPU = 6`, `choose_fan_value 46.9 CPU = 0`, the
aggregated maximum of readings `{sda: 56, sdb: 61, sdc: none}` is `61`,
and `choose_fan_value 61 HDD = 30`. -/
theorem claim_C8_concrete_evaluations :
    choose_fan_value 52 CPU_THRESHOLDS = 6 ∧
      choose_fan_value (469 / 10) CPU_THRESHOLDS = 0 ∧
      aggregate_max [some 56, some 61, none] = 61 ∧
      choose_fan_value 61 HDD_THRESHOLDS = 30 :=
  ⟨by decide,
    by norm_num [choose_fan_value, chooseFanLoop, CPU_THRESHOLDS],
    by decide, by decide⟩

/-- Claim C9: starting from initial duties of `0`, every duty value
handed to `set_fan_speed` after any sequence of CPU and HDD ticks is in
`[0, 100]`. -/
theorem claim_C9_actuated_duty_in_range (ticks : List Tick) :
    ∀ d ∈ (runTicks ticks initState).2, 0 ≤ d ∧ d ≤ 100 :=
  runTicks_outputs_range ticks initState
    ⟨le_rfl, by norm_num [initState], le_rfl, by norm_num [initState]⟩

/-- Witness for C9 on a concrete one-tick run. -/
theorem claim_C9_actuated_duty_in_range_witness :
    (6 : ℤ) ∈ (runTicks [Tick.cpu (some 52)] initState).2 ∧
      0 ≤ (6 : ℤ) ∧ (6 : ℤ) ≤ 100 :=
  ⟨by decide, claim_C9_actuated_duty_in_range [Tick.cpu (some 52)] 6 (by decide)⟩

/-- Claim C10: `choose_fan_value` returns either `0` or a duty value
appearing in the table; on the empty table it returns `0` for every
temperature. -/
theorem claim_C10_result_from_table (t : ℚ) (table : ThresholdTable) :
    (choose_fan_value t table = 0 ∨
        ∃ p ∈ table, choose_fan_value t table = p.2) ∧
      choose_fan_value t ([] : ThresholdTable) = 0 :=
  ⟨chooseFanLoop_eq_or_mem t table 0, rfl⟩

end FanControl
